import Mathlib

/-!
Shallow embedding of the block-execution coordinator task
(`src/service/executor_task.rs`, `run_executor_task`).

The coordinator loop itself is translated from the source.  Its
collaborators (the storage engine, the program compiler and the verifier)
live outside the provided sources, so they are modelled from the spec:
the compiler and the verifier are arbitrary function parameters, and the
storage snapshot / store operations follow the contracts of spec sections
4.3 and 6.

Machine integers: hashes (H256) are opaque identifiers here, modelled as
`Nat`; bytes are `Nat` as well.  No arithmetic is performed on either, so
no overflow modelling is needed.
-/

set_option autoImplicit false

namespace ExecutorTask

/-- Byte strings (`Vec<u8>` in the source). -/
abbrev Bytes := List Nat

/-- Block hashes (`H256` in the source), treated as opaque identifiers. -/
abbrev Hash := Nat

/-- The reserved program-storage key, the byte string `b":code"` used at
line 114 of the source (`:` = 58, `c` = 99, `o` = 111, `d` = 100, `e` = 101). -/
def codeKey : Bytes := [58, 99, 111, 100, 101]

/-- Modelled from the spec: a storage snapshot is a key/value mapping
owned by one block (spec section 3).  The internal representation of the
storage tree is out of scope, so the mapping is an association list. -/
structure Snapshot where
  entries : List (Bytes × Bytes)
deriving DecidableEq, Repr

/-- Modelled from the spec: point lookup by key (`point_get`). -/
def Snapshot.get (s : Snapshot) (k : Bytes) : Option Bytes :=
  (s.entries.find? (fun p => decide (p.1 = k))).map Prod.snd

/-- Modelled from the spec: insert/overwrite a key (used by
`derive_child`, spec section 4.3). -/
def Snapshot.insert (s : Snapshot) (k : Bytes) (v : Bytes) : Snapshot :=
  ⟨(k, v) :: s.entries.filter (fun p => decide (¬ p.1 = k))⟩

/-- Modelled from the spec: remove a key (used by `derive_child`,
spec section 4.3). -/
def Snapshot.remove (s : Snapshot) (k : Bytes) : Snapshot :=
  ⟨s.entries.filter (fun p => decide (¬ p.1 = k))⟩

/-- Modelled from the spec: the sequence of keys of a snapshot
(`storage_keys` in the source closure at lines 92-100). -/
def Snapshot.storage_keys (s : Snapshot) : List Bytes :=
  s.entries.map Prod.fst

/-- The key-enumeration read accessor built at source lines 92-100
(`parent_storage_keys_prefix`): it asserts that the requested key prefix
is empty — a non-empty prefix makes the assertion fail, modelled as
`none` — and otherwise collects every key of the parent snapshot. -/
def parent_storage_keys_enum (parent : Snapshot) (pfx : Bytes) : Option (List Bytes) :=
  if pfx = [] then some parent.storage_keys else none

/-- Modelled from the spec: the hash-addressed registry of snapshots
(spec section 4.3), a partial map from block hash to snapshot. -/
def Storage := Hash → Option Snapshot

/-- Modelled from the spec: record a snapshot under a hash
(`.block(&hash).set_storage(..)` in the source). -/
def Storage.set_storage (st : Storage) (h : Hash) (s : Snapshot) : Storage :=
  fun h2 => if h2 = h then some s else st h2

/-- Modelled from the spec: evict the snapshot stored under a hash
(`.remove_storage(&hash)` in the source); a later get fails. -/
def Storage.remove_storage (st : Storage) (h : Hash) : Storage :=
  fun h2 => if h2 = h then none else st h2

/-- Block header.  The source header carries the parent hash and yields a
derived block hash (`header.block_hash()`, code outside the provided
sources); modelled from the spec, the derived hash is carried as a
field. -/
structure Header where
  parent_hash : Hash
  derived_hash : Hash
deriving DecidableEq, Repr

/-- Modelled from the spec: `header.block_hash()` yields the header's
derived block hash. -/
def Header.block_hash (h : Header) : Hash := h.derived_hash

/-- A block: header plus body (`extrinsics` in the source). -/
structure Block where
  header : Header
  extrinsics : List Bytes
deriving DecidableEq, Repr

/-- A delta set (`storage_top_trie_changes`): keys mapped to an optional
replacement value, `none` meaning deletion. -/
abbrev DeltaSet := List (Bytes × Option Bytes)

/-- Lookup of a key in a delta set: `some (some v)` = overwrite with `v`,
`some none` = delete, `none` = key not mentioned. -/
def deltaLookup (d : DeltaSet) (k : Bytes) : Option (Option Bytes) :=
  (d.find? (fun kv => decide (kv.1 = k))).map Prod.snd

/-- Whether a delta set mentions the reserved program-storage key
(`storage_top_trie_changes.contains_key(&b":code"[..])`, source line 114). -/
def deltaTouchesCode (d : DeltaSet) : Bool :=
  d.any (fun kv => decide (kv.1 = codeKey))

/-- Source lines 118-125: the child snapshot is the parent's mapping with
each delta entry applied — a present value is inserted/overwritten, an
absent value is removed. -/
def applyDeltaSet (parent : Snapshot) (d : DeltaSet) : Snapshot :=
  d.foldl
    (fun acc kv =>
      match kv.2 with
      | some v => acc.insert kv.1 v
      | none => acc.remove kv.1)
    parent

/-- The compiled form of the runtime program (`executor::WasmBlob`).  Its
internals are out of scope; it is identified by the bytes it was compiled
from, while the compiler itself stays an arbitrary parameter. -/
abbrev WasmBlob := Bytes

/-- Modelled from the spec: the program compiler,
`compile(source bytes) -> program | CompileError` (spec section 6);
`none` is a compile error. -/
abbrev Compiler := Bytes → Option WasmBlob

/-- Modelled from the spec: the external verifier
(`block_import::verify_block`): given the runtime program, the block
header and body, and the parent snapshot the read accessors are bound to,
it resolves to a delta set (`some`) or rejects (`none`). -/
abbrev Verifier := WasmBlob → Header → List Bytes → Snapshot → Option DeltaSet

/-- One execution request (`ToExecutor::Execute`): the block to execute
plus the state of its reply channel — `canceled = true` models
`send_back.is_canceled()` at the moment the request is dequeued. -/
structure Request where
  to_execute : Block
  canceled : Bool
deriving DecidableEq, Repr

/-- The value sent back on acceptance (`ExecuteSuccess`). -/
structure ExecuteSuccess where
  block : Block
  storage_changes : DeltaSet
deriving DecidableEq, Repr

/-- The ways a single request makes the coordinator task panic in the
source: `.storage().unwrap()` (line 62), `code_key().unwrap()` (line 67),
`WasmBlob::from_bytes(..).unwrap()` (line 73), and the
`Err(_) => panic!()` arm (line 141). -/
inductive PanicReason where
  | missingParentSnapshot
  | missingCodeKey
  | compileFailure
  | verificationRejected
deriving DecidableEq, Repr

/-- How one dequeued request ends: silently skipped (reply channel
canceled), one successful outcome delivered on the reply channel, or a
panic of the whole task with nothing delivered. -/
inductive StepOutcome where
  | skipped
  | delivered (success : ExecuteSuccess)
  | panicked (reason : PanicReason)
deriving DecidableEq, Repr

/-- Number of outcomes delivered on the request's reply channel. -/
def StepOutcome.deliveries : StepOutcome → Nat
  | .delivered _ => 1
  | _ => 0

/-- Observation record of one dequeued request: its outcome, how many
times the compiler ran, how many times the verifier ran, and the program
bytes read from the parent snapshot (if the processing got that far). -/
structure StepTrace where
  outcome : StepOutcome
  compiles : Nat
  verifies : Nat
  parentCode : Option Bytes
deriving DecidableEq, Repr

/-- Whether a trace's step committed a delta set touching the reserved
program-storage key (false for steps that delivered nothing). -/
def StepTrace.touchesCode (t : StepTrace) : Bool :=
  match t.outcome with
  | .delivered s => deltaTouchesCode s.storage_changes
  | _ => false

/-- The coordinator task's state: the storage store and the single-entry
runtime cache `wasm_blob_cache : Option (Vec<u8>, WasmBlob)` of source
line 46. -/
structure ExecState where
  storage : Storage
  wasm_blob_cache : Option (Bytes × WasmBlob)

/-- Source lines 79-142, after the runtime blob has been resolved:
`n` compiler runs happened, the cache now holds `(code, blob)`; the
verifier runs; on `Err` the task panics (line 141); on `Ok` the cache is
invalidated when the delta touches `b":code"` (lines 114-116), the child
snapshot is derived (lines 118-125), the parent snapshot is evicted and
the child stored under the block's own hash (lines 126-134), and exactly
one `Ok(ExecuteSuccess)` is sent back (lines 136-139). -/
def finishWithBlob (verify : Verifier) (st : ExecState) (req : Request)
    (parent : Snapshot) (code : Bytes) (n : Nat) (blob : WasmBlob) :
    StepTrace × ExecState :=
  match verify blob req.to_execute.header req.to_execute.extrinsics parent with
  | none =>
      (⟨.panicked .verificationRejected, n, 1, some code⟩,
       ⟨st.storage, some (code, blob)⟩)
  | some delta =>
      (⟨.delivered ⟨req.to_execute, delta⟩, n, 1, some code⟩,
       ⟨Storage.set_storage
          (Storage.remove_storage st.storage req.to_execute.header.parent_hash)
          req.to_execute.header.block_hash
          (applyDeltaSet parent delta),
        if deltaTouchesCode delta then none else some (code, blob)⟩)

/-- Source lines 73-74 (cache-miss path): compile the parent's program
bytes; the `.unwrap()` panics on a compile error (before the cache is
written), otherwise the cache entry is replaced and processing goes on. -/
def compileAndFinish (compile : Compiler) (verify : Verifier) (st : ExecState)
    (req : Request) (parent : Snapshot) (code : Bytes) : StepTrace × ExecState :=
  match compile code with
  | none => (⟨.panicked .compileFailure, 1, 0, some code⟩, st)
  | some blob => finishWithBlob verify st req parent code 1 blob

/-- One iteration of the coordinator loop body (source lines 50-143) for a
dequeued request: skip it when the reply channel is already canceled
(lines 54-56); fetch and unwrap the parent snapshot (lines 58-62); read
and unwrap its program bytes (line 67); reuse the cached blob when the
cached key equals those bytes, otherwise recompile (lines 66-77); then
verify and commit. -/
def processRequest (compile : Compiler) (verify : Verifier) (st : ExecState)
    (req : Request) : StepTrace × ExecState :=
  if req.canceled then
    (⟨.skipped, 0, 0, none⟩, st)
  else
    match st.storage req.to_execute.header.parent_hash with
    | none => (⟨.panicked .missingParentSnapshot, 0, 0, none⟩, st)
    | some parent =>
      match parent.get codeKey with
      | none => (⟨.panicked .missingCodeKey, 0, 0, none⟩, st)
      | some code =>
        match st.wasm_blob_cache with
        | none => compileAndFinish compile verify st req parent code
        | some (c, blob) =>
          if c = code then finishWithBlob verify st req parent code 0 blob
          else compileAndFinish compile verify st req parent code

/-- The coordinator loop (source lines 48-145) on a queue of requests: it
processes them in arrival order; a panic aborts the task, leaving every
later request unserved.  Returns the final state and the per-request
traces of the requests actually dequeued. -/
def run_executor_task (compile : Compiler) (verify : Verifier) :
    ExecState → List Request → ExecState × List StepTrace
  | st, [] => (st, [])
  | st, req :: rest =>
      let step := processRequest compile verify st req
      match step.1.outcome with
      | .panicked _ => (step.2, [step.1])
      | _ =>
          let run := run_executor_task compile verify step.2 rest
          (run.1, step.1 :: run.2)

/-- Total number of compiler invocations along a trace. -/
def totalCompiles (trs : List StepTrace) : Nat :=
  (trs.map StepTrace.compiles).sum

/-! ### Basic lemmas about snapshots and delta sets -/

theorem find?_filter_of_imp {α : Type} (l : List α) (p q : α → Bool)
    (h : ∀ x, p x = true → q x = true) : (l.filter q).find? p = l.find? p := by
  induction l with
  | nil => rfl
  | cons x xs ih =>
    by_cases hq : q x = true
    · rw [List.filter_cons_of_pos hq]
      by_cases hp : p x = true
      · rw [List.find?_cons_of_pos _ hp, List.find?_cons_of_pos _ hp]
      · rw [List.find?_cons_of_neg _ hp, List.find?_cons_of_neg _ hp, ih]
    · have hp : ¬ p x = true := fun hpx => hq (h x hpx)
      rw [List.filter_cons_of_neg hq, List.find?_cons_of_neg _ hp, ih]

theorem Snapshot.get_insert (s : Snapshot) (k v k2 : Bytes) :
    (s.insert k v).get k2 = if k2 = k then some v else s.get k2 := by
  by_cases h : k2 = k
  · subst h
    simp [Snapshot.get, Snapshot.insert, List.find?_cons_of_pos]
  · have hne : ¬ (k = k2) := fun e => h e.symm
    rw [if_neg h]
    unfold Snapshot.get Snapshot.insert
    simp only
    rw [List.find?_cons_of_neg _ (by simpa using hne), find?_filter_of_imp]
    intro x hx
    simp only [decide_eq_true_eq] at hx ⊢
    intro he
    exact h (hx ▸ he ▸ rfl)

theorem Snapshot.get_remove (s : Snapshot) (k k2 : Bytes) :
    (s.remove k).get k2 = if k2 = k then none else s.get k2 := by
  by_cases h : k2 = k
  · subst h
    unfold Snapshot.get Snapshot.remove
    simp only
    have : (s.entries.filter (fun p => decide (¬ p.1 = k2))).find?
        (fun p => decide (p.1 = k2)) = none := by
      rw [List.find?_eq_none]
      intro x hx
      simp only [List.mem_filter, decide_eq_true_eq] at hx
      simp [hx.2]
    rw [this]
    simp
  · rw [if_neg h]
    unfold Snapshot.get Snapshot.remove
    simp only
    rw [find?_filter_of_imp]
    intro x hx
    simp only [decide_eq_true_eq] at hx ⊢
    intro he
    exact h (hx ▸ he ▸ rfl)

theorem Snapshot.mem_storage_keys (s : Snapshot) (k : Bytes) :
    k ∈ s.storage_keys ↔ (s.get k).isSome := by
  unfold Snapshot.storage_keys Snapshot.get
  constructor
  · intro hmem
    rcases List.mem_map.1 hmem with ⟨p, hp, he⟩
    have hsome : (s.entries.find? (fun p => decide (p.1 = k))).isSome :=
      List.find?_isSome.2 ⟨p, hp, by simp [he]⟩
    rcases Option.isSome_iff_exists.1 hsome with ⟨q, hq⟩
    simp [hq]
  · intro hsome
    have hsome2 : (s.entries.find? (fun p => decide (p.1 = k))).isSome := by
      rcases Option.isSome_iff_exists.1 hsome with ⟨v, hv⟩
      rcases Option.map_eq_some'.1 hv with ⟨q, hq, -⟩
      simp [hq]
    rcases List.find?_isSome.1 hsome2 with ⟨p, hp, hpk⟩
    simp only [decide_eq_true_eq] at hpk
    exact List.mem_map.2 ⟨p, hp, hpk⟩

theorem deltaLookup_eq_none (d : DeltaSet) (k : Bytes)
    (h : k ∉ d.map Prod.fst) : deltaLookup d k = none := by
  unfold deltaLookup
  have : d.find? (fun kv => decide (kv.1 = k)) = none := by
    rw [List.find?_eq_none]
    intro kv hkv
    simp only [decide_eq_true_eq]
    intro he
    exact h (List.mem_map.2 ⟨kv, hkv, he⟩)
  rw [this]
  rfl

theorem deltaTouchesCode_iff (d : DeltaSet) :
    deltaTouchesCode d = true ↔ ∃ o, deltaLookup d codeKey = some o := by
  unfold deltaTouchesCode deltaLookup
  rw [List.any_eq_true]
  constructor
  · rintro ⟨kv, hkv, he⟩
    simp only [decide_eq_true_eq] at he
    have hsome : (d.find? (fun kv => decide (kv.1 = codeKey))).isSome :=
      List.find?_isSome.2 ⟨kv, hkv, by simp [he]⟩
    rcases Option.isSome_iff_exists.1 hsome with ⟨p, hp⟩
    exact ⟨p.2, by rw [hp]; rfl⟩
  · rintro ⟨o, ho⟩
    rcases Option.map_eq_some'.1 ho with ⟨p, hp, -⟩
    have hpk := List.find?_some hp
    simp only [decide_eq_true_eq] at hpk
    exact ⟨p, List.mem_of_find?_eq_some hp, by simp [hpk]⟩

theorem get_applyDeltaSet (d : DeltaSet) (parent : Snapshot) (k : Bytes)
    (hnd : (d.map Prod.fst).Nodup) :
    (applyDeltaSet parent d).get k =
      match deltaLookup d k with
      | some (some v) => some v
      | some none => none
      | none => parent.get k := by
  induction d generalizing parent with
  | nil => simp [applyDeltaSet, deltaLookup]
  | cons kv rest ih =>
    rw [List.map_cons, List.nodup_cons] at hnd
    have hstep : applyDeltaSet parent (kv :: rest) =
        applyDeltaSet
          (match kv.2 with
           | some v => parent.insert kv.1 v
           | none => parent.remove kv.1) rest := rfl
    by_cases hk : kv.1 = k
    · have hrest : deltaLookup rest k = none :=
        deltaLookup_eq_none rest k (hk ▸ hnd.1)
      have hlook : deltaLookup (kv :: rest) k = some kv.2 := by
        unfold deltaLookup
        rw [List.find?_cons_of_pos _ (by simp [hk])]
        rfl
      rw [hstep, ih _ hnd.2, hrest, hlook]
      cases hv : kv.2 with
      | none => simp [Snapshot.get_remove, hk]
      | some v => simp [Snapshot.get_insert, hk]
    · have hlook : deltaLookup (kv :: rest) k = deltaLookup rest k := by
        unfold deltaLookup
        rw [List.find?_cons_of_neg _ (by simp [hk])]
      rw [hstep, ih _ hnd.2, hlook]
      have hke : ¬ (k = kv.1) := fun e => hk e.symm
      have hpar : (match kv.2 with
           | some v => parent.insert kv.1 v
           | none => parent.remove kv.1).get k = parent.get k := by
        cases kv.2 with
        | none => simp [Snapshot.get_remove, hke]
        | some v => simp [Snapshot.get_insert, hke]
      rw [hpar]

theorem Storage.set_storage_get_self (st : Storage) (h : Hash) (s : Snapshot) :
    st.set_storage h s h = some s := by
  simp [Storage.set_storage]

theorem Storage.set_storage_get_other (st : Storage) (h h2 : Hash) (s : Snapshot)
    (hne : h2 ≠ h) : st.set_storage h s h2 = st h2 := by
  simp [Storage.set_storage, hne]

theorem Storage.remove_storage_get_self (st : Storage) (h : Hash) :
    st.remove_storage h h = none := by
  simp [Storage.remove_storage]

theorem Storage.remove_storage_get_other (st : Storage) (h h2 : Hash)
    (hne : h2 ≠ h) : st.remove_storage h h2 = st h2 := by
  simp [Storage.remove_storage, hne]

/-! ### Shape lemmas for one loop iteration -/

theorem processRequest_canceled_eq (compile : Compiler) (verify : Verifier)
    (st : ExecState) (r : Request) (hc : r.canceled = true) :
    processRequest compile verify st r = (⟨.skipped, 0, 0, none⟩, st) := by
  unfold processRequest
  rw [if_pos hc]

theorem finishWithBlob_delivered (verify : Verifier) (st : ExecState) (r : Request)
    (parent : Snapshot) (code : Bytes) (n : Nat) (blob : WasmBlob) (s : ExecuteSuccess)
    (hout : (finishWithBlob verify st r parent code n blob).1.outcome = .delivered s) :
    verify blob r.to_execute.header r.to_execute.extrinsics parent = some s.storage_changes ∧
    s.block = r.to_execute ∧
    finishWithBlob verify st r parent code n blob =
      (⟨.delivered s, n, 1, some code⟩,
       ⟨Storage.set_storage
          (Storage.remove_storage st.storage r.to_execute.header.parent_hash)
          r.to_execute.header.block_hash
          (applyDeltaSet parent s.storage_changes),
        if deltaTouchesCode s.storage_changes then none else some (code, blob)⟩) := by
  unfold finishWithBlob at hout ⊢
  cases hv : verify blob r.to_execute.header r.to_execute.extrinsics parent with
  | none => rw [hv] at hout; simp at hout
  | some delta =>
    rw [hv] at hout
    obtain ⟨sb, sd⟩ := s
    simp only [StepOutcome.delivered.injEq, ExecuteSuccess.mk.injEq] at hout
    obtain ⟨h1, h2⟩ := hout
    subst h1
    subst h2
    exact ⟨rfl, rfl, rfl⟩

theorem compileAndFinish_delivered (compile : Compiler) (verify : Verifier)
    (st : ExecState) (r : Request) (parent : Snapshot) (code : Bytes) (s : ExecuteSuccess)
    (hout : (compileAndFinish compile verify st r parent code).1.outcome = .delivered s) :
    ∃ blob, compile code = some blob ∧
      compileAndFinish compile verify st r parent code =
        finishWithBlob verify st r parent code 1 blob := by
  unfold compileAndFinish at hout ⊢
  cases hc : compile code with
  | none => rw [hc] at hout; simp at hout
  | some blob =>
    exact ⟨blob, rfl, rfl⟩

theorem processRequest_delivered (compile : Compiler) (verify : Verifier)
    (st : ExecState) (r : Request) (s : ExecuteSuccess)
    (hout : (processRequest compile verify st r).1.outcome = .delivered s) :
    r.canceled = false ∧
    ∃ parent code n blob,
      st.storage r.to_execute.header.parent_hash = some parent ∧
      parent.get codeKey = some code ∧
      n ≤ 1 ∧
      (n = 0 → st.wasm_blob_cache = some (code, blob)) ∧
      processRequest compile verify st r = finishWithBlob verify st r parent code n blob := by
  by_cases hc : r.canceled = true
  · rw [processRequest_canceled_eq compile verify st r hc] at hout
    simp at hout
  · refine ⟨by simpa using hc, ?_⟩
    cases hp : st.storage r.to_execute.header.parent_hash with
    | none =>
      simp only [processRequest, if_neg hc, hp] at hout
      simp at hout
    | some parent =>
      cases hk : parent.get codeKey with
      | none =>
        simp only [processRequest, if_neg hc, hp, hk] at hout
        simp at hout
      | some code =>
        cases hcache : st.wasm_blob_cache with
        | none =>
          have heq : processRequest compile verify st r =
              compileAndFinish compile verify st r parent code := by
            simp only [processRequest, if_neg hc, hp, hk, hcache]
          rw [heq] at hout
          obtain ⟨blob, -, h2⟩ :=
            compileAndFinish_delivered compile verify st r parent code s hout
          exact ⟨parent, code, 1, blob, rfl, hk, Nat.le_refl 1,
            fun h01 => absurd h01 Nat.one_ne_zero, heq.trans h2⟩
        | some entry =>
          obtain ⟨c, blob0⟩ := entry
          by_cases hcc : c = code
          · have heq : processRequest compile verify st r =
                finishWithBlob verify st r parent code 0 blob0 := by
              simp only [processRequest, if_neg hc, hp, hk, hcache, if_pos hcc]
            exact ⟨parent, code, 0, blob0, rfl, hk, Nat.zero_le 1,
              fun _ => by rw [hcc], heq⟩
          · have heq : processRequest compile verify st r =
                compileAndFinish compile verify st r parent code := by
              simp only [processRequest, if_neg hc, hp, hk, hcache, if_neg hcc]
            rw [heq] at hout
            obtain ⟨blob, -, h2⟩ :=
              compileAndFinish_delivered compile verify st r parent code s hout
            exact ⟨parent, code, 1, blob, rfl, hk, Nat.le_refl 1,
              fun h01 => absurd h01 Nat.one_ne_zero, heq.trans h2⟩

theorem finishWithBlob_compiles (verify : Verifier) (st : ExecState) (r : Request)
    (parent : Snapshot) (code : Bytes) (n : Nat) (blob : WasmBlob) :
    (finishWithBlob verify st r parent code n blob).1.compiles = n := by
  unfold finishWithBlob
  split <;> rfl

theorem compileAndFinish_compiles (compile : Compiler) (verify : Verifier)
    (st : ExecState) (r : Request) (parent : Snapshot) (code : Bytes) :
    (compileAndFinish compile verify st r parent code).1.compiles = 1 := by
  unfold compileAndFinish finishWithBlob
  repeat' split
  all_goals rfl

theorem compileAndFinish_parentCode (compile : Compiler) (verify : Verifier)
    (st : ExecState) (r : Request) (parent : Snapshot) (code : Bytes) :
    (compileAndFinish compile verify st r parent code).1.parentCode = some code := by
  unfold compileAndFinish finishWithBlob
  repeat' split
  all_goals rfl

theorem processRequest_compiles_le_one (compile : Compiler) (verify : Verifier)
    (st : ExecState) (r : Request) :
    (processRequest compile verify st r).1.compiles ≤ 1 := by
  unfold processRequest compileAndFinish finishWithBlob
  repeat' split
  all_goals simp

theorem processRequest_skipped (compile : Compiler) (verify : Verifier)
    (st : ExecState) (r : Request)
    (hout : (processRequest compile verify st r).1.outcome = .skipped) :
    processRequest compile verify st r = (⟨.skipped, 0, 0, none⟩, st) := by
  by_cases hc : r.canceled = true
  · exact processRequest_canceled_eq compile verify st r hc
  · exfalso
    unfold processRequest compileAndFinish finishWithBlob at hout
    rw [if_neg hc] at hout
    repeat' split at hout
    all_goals simp at hout

theorem processRequest_cache_hit_compiles (compile : Compiler) (verify : Verifier)
    (st : ExecState) (r : Request) (c : Bytes) (blob : WasmBlob)
    (hcache : st.wasm_blob_cache = some (c, blob))
    (hpc : (processRequest compile verify st r).1.parentCode = none ∨
           (processRequest compile verify st r).1.parentCode = some c) :
    (processRequest compile verify st r).1.compiles = 0 := by
  by_cases hc : r.canceled = true
  · rw [processRequest_canceled_eq compile verify st r hc]
  · cases hp : st.storage r.to_execute.header.parent_hash with
    | none => simp only [processRequest, if_neg hc, hp]
    | some parent =>
      cases hk : parent.get codeKey with
      | none => simp only [processRequest, if_neg hc, hp, hk]
      | some code =>
        by_cases hcc : c = code
        · have heq : processRequest compile verify st r =
              finishWithBlob verify st r parent code 0 blob := by
            simp only [processRequest, if_neg hc, hp, hk, hcache, if_pos hcc]
          rw [heq, finishWithBlob_compiles]
        · have heq : processRequest compile verify st r =
              compileAndFinish compile verify st r parent code := by
            simp only [processRequest, if_neg hc, hp, hk, hcache, if_neg hcc]
          exfalso
          rw [heq, compileAndFinish_parentCode] at hpc
          rcases hpc with h | h
          · exact Option.noConfusion h
          · injection h with h2
            exact hcc h2.symm

theorem totalCompiles_cons (t : StepTrace) (l : List StepTrace) :
    totalCompiles (t :: l) = t.compiles + totalCompiles l := by
  simp [totalCompiles]

theorem run_nil (compile : Compiler) (verify : Verifier) (st : ExecState) :
    run_executor_task compile verify st [] = (st, []) := rfl

theorem run_cons_panicked (compile : Compiler) (verify : Verifier) (st : ExecState)
    (r : Request) (rest : List Request) (reason : PanicReason)
    (hout : (processRequest compile verify st r).1.outcome = .panicked reason) :
    run_executor_task compile verify st (r :: rest) =
      ((processRequest compile verify st r).2, [(processRequest compile verify st r).1]) := by
  unfold run_executor_task
  simp only [hout]

theorem run_cons_skipped (compile : Compiler) (verify : Verifier) (st : ExecState)
    (r : Request) (rest : List Request)
    (hout : (processRequest compile verify st r).1.outcome = .skipped) :
    run_executor_task compile verify st (r :: rest) =
      ((run_executor_task compile verify (processRequest compile verify st r).2 rest).1,
       (processRequest compile verify st r).1 ::
         (run_executor_task compile verify (processRequest compile verify st r).2 rest).2) := by
  conv_lhs => rw [run_executor_task]
  simp only [hout]

theorem run_cons_delivered (compile : Compiler) (verify : Verifier) (st : ExecState)
    (r : Request) (rest : List Request) (s : ExecuteSuccess)
    (hout : (processRequest compile verify st r).1.outcome = .delivered s) :
    run_executor_task compile verify st (r :: rest) =
      ((run_executor_task compile verify (processRequest compile verify st r).2 rest).1,
       (processRequest compile verify st r).1 ::
         (run_executor_task compile verify (processRequest compile verify st r).2 rest).2) := by
  conv_lhs => rw [run_executor_task]
  simp only [hout]

theorem run_compiles_bound (compile : Compiler) (verify : Verifier) (c : Bytes)
    (rs : List Request) :
    ∀ (st : ExecState),
      (∀ t ∈ (run_executor_task compile verify st rs).2,
          t.parentCode = none ∨ t.parentCode = some c) →
      (∀ t ∈ (run_executor_task compile verify st rs).2,
          t.touchesCode = false) →
      (st.wasm_blob_cache = none →
          totalCompiles (run_executor_task compile verify st rs).2 ≤ 1) ∧
      (∀ blob, st.wasm_blob_cache = some (c, blob) →
          totalCompiles (run_executor_task compile verify st rs).2 = 0) := by
  induction rs with
  | nil =>
      intro st hsame hnocode
      constructor
      · intro h1
        simp [run_nil, totalCompiles]
      · intro blob h1
        simp [run_nil, totalCompiles]
  | cons r rest ih =>
      intro st hsame hnocode
      cases hout : (processRequest compile verify st r).1.outcome with
      | skipped =>
          have hstep := processRequest_skipped compile verify st r hout
          have hrun := run_cons_skipped compile verify st r rest hout
          rw [hstep] at hrun
          have hmemr : ∀ t ∈ (run_executor_task compile verify st rest).2,
              t ∈ (run_executor_task compile verify st (r :: rest)).2 := by
            intro t ht
            rw [hrun]
            exact List.mem_cons_of_mem _ ht
          obtain ⟨ih1, ih2⟩ := ih st
            (fun t ht => hsame t (hmemr t ht))
            (fun t ht => hnocode t (hmemr t ht))
          rw [hrun]
          constructor
          · intro h1
            rw [totalCompiles_cons]
            simpa using ih1 h1
          · intro blob h1
            rw [totalCompiles_cons]
            simpa using ih2 blob h1
      | panicked reason =>
          have hrun := run_cons_panicked compile verify st r rest reason hout
          rw [hrun]
          constructor
          · intro h1
            rw [totalCompiles_cons]
            simpa [totalCompiles] using processRequest_compiles_le_one compile verify st r
          · intro blob h1
            rw [totalCompiles_cons]
            have hpc : (processRequest compile verify st r).1.parentCode = none ∨
                (processRequest compile verify st r).1.parentCode = some c := by
              have hm : (processRequest compile verify st r).1 ∈
                  (run_executor_task compile verify st (r :: rest)).2 := by
                rw [hrun]
                exact List.mem_singleton.2 rfl
              exact hsame _ hm
            have h0 := processRequest_cache_hit_compiles compile verify st r c blob h1 hpc
            simp [totalCompiles, h0]
      | delivered s =>
          obtain ⟨-, parent, code, n, blob, hp, hk, hn1, hn0, heq⟩ :=
            processRequest_delivered compile verify st r s hout
          obtain ⟨hv, hblock, hfull⟩ :=
            finishWithBlob_delivered verify st r parent code n blob s (heq ▸ hout)
          have hall : processRequest compile verify st r =
              (⟨.delivered s, n, 1, some code⟩,
               ⟨Storage.set_storage
                  (Storage.remove_storage st.storage r.to_execute.header.parent_hash)
                  r.to_execute.header.block_hash
                  (applyDeltaSet parent s.storage_changes),
                if deltaTouchesCode s.storage_changes then none
                else some (code, blob)⟩) := heq.trans hfull
          have hrun := run_cons_delivered compile verify st r rest s hout
          have hmem : (processRequest compile verify st r).1 ∈
              (run_executor_task compile verify st (r :: rest)).2 := by
            rw [hrun]
            exact List.mem_cons_self _ _
          have hcode_c : code = c := by
            rcases hsame _ hmem with h | h
            · rw [hall] at h
              exact absurd h (by simp)
            · rw [hall] at h
              simpa using h
          have htouch : deltaTouchesCode s.storage_changes = false := by
            have ht := hnocode _ hmem
            rw [hall] at ht
            simpa [StepTrace.touchesCode] using ht
          have hcache2 : (processRequest compile verify st r).2.wasm_blob_cache =
              some (c, blob) := by
            rw [hall]
            simp [htouch, hcode_c]
          have hmemr : ∀ t ∈ (run_executor_task compile verify
                (processRequest compile verify st r).2 rest).2,
              t ∈ (run_executor_task compile verify st (r :: rest)).2 := by
            intro t ht
            rw [hrun]
            exact List.mem_cons_of_mem _ ht
          obtain ⟨-, ih2⟩ := ih (processRequest compile verify st r).2
            (fun t ht => hsame t (hmemr t ht))
            (fun t ht => hnocode t (hmemr t ht))
          have hrest0 := ih2 blob hcache2
          rw [hrun, totalCompiles_cons, hrest0]
          constructor
          · intro h1
            have hcomp : (processRequest compile verify st r).1.compiles = n := by
              rw [hall]
            rw [hcomp]
            omega
          · intro blob2 h1
            have hpc : (processRequest compile verify st r).1.parentCode = none ∨
                (processRequest compile verify st r).1.parentCode = some c :=
              hsame _ hmem
            have h0 := processRequest_cache_hit_compiles compile verify st r c blob2 h1 hpc
            rw [h0]

/-! ### Concrete data for closed runs -/

/-- A compiler for concrete runs: every byte string compiles, and the
compiled form is the source itself. -/
def demoCompile : Compiler := fun b => some b

/-- Program bytes stored under the reserved key in the demo genesis. -/
def demoProg : Bytes := [7]

/-- Demo genesis snapshot: the program bytes under the reserved key, and
the key "a" (byte 97) with value 1. -/
def snapG : Snapshot := ⟨[(codeKey, demoProg), ([97], [1])]⟩

/-- Demo genesis hash. -/
def hashG : Hash := 0

/-- Demo store holding only the genesis snapshot. -/
def store0 : Storage := fun h => if h = hashG then some snapG else none

/-- Demo start state: genesis snapshot stored, empty runtime cache. -/
def state0 : ExecState := ⟨store0, none⟩

/-- Demo block B1: parent = genesis, derived hash 1. -/
def blockB1 : Block := ⟨⟨hashG, 1⟩, []⟩

/-- Live request to execute B1. -/
def reqB1 : Request := ⟨blockB1, false⟩

/-- Demo block B2: parent = B1, derived hash 2. -/
def blockB2 : Block := ⟨⟨1, 2⟩, []⟩

/-- Live request to execute B2. -/
def reqB2 : Request := ⟨blockB2, false⟩

/-- A request for B1 whose reply channel is already canceled. -/
def reqCanceled : Request := ⟨blockB1, true⟩

/-- A verifier that rejects every block. -/
def rejectAll : Verifier := fun _ _ _ _ => none

/-- A verifier that accepts every block with an empty delta set. -/
def acceptEmpty : Verifier := fun _ _ _ _ => some []

/-- A verifier that accepts every block with a delta set writing
a = 2 and deleting b (keys 97 and 98). -/
def mixVerify : Verifier := fun _ _ _ _ => some [([97], some [2]), ([98], none)]

/-- A verifier that accepts B1 with a delta deleting the reserved
program-storage key, and every other block with an empty delta set. -/
def deleteCodeVerify : Verifier := fun _ h _ _ =>
  if h.derived_hash = 1 then some [(codeKey, none)] else some []

/-- A verifier that accepts B1 with a delta rewriting the reserved
program-storage key with the very bytes it already holds, and every other
block with an empty delta set. -/
def rewriteCodeVerify : Verifier := fun _ h _ _ =>
  if h.derived_hash = 1 then some [(codeKey, some demoProg)] else some []

/-! ### The claims -/

/-- Claim C1: the claim says every error kind resolves to a per-request
outcome on the reply channel and the loop keeps running.  The code instead
panics: a rejected block ends the run with a single panicked trace (the
queued second request is never dequeued, nothing is delivered), a missing
parent snapshot panics at the unwrap of the parent lookup, and malformed
program bytes panic at the unwrap of the compiler.  This theorem evaluates
the code on those three failing inputs. -/
theorem C1_error_kinds_panic_instead_of_replying :
    (run_executor_task demoCompile rejectAll state0 [reqB1, reqB1]).2 =
      [⟨.panicked .verificationRejected, 1, 1, some demoProg⟩] ∧
    (processRequest demoCompile rejectAll ⟨fun _ => none, none⟩ reqB1).1 =
      ⟨.panicked .missingParentSnapshot, 0, 0, none⟩ ∧
    (processRequest (fun _ => none) rejectAll state0 reqB1).1 =
      ⟨.panicked .compileFailure, 1, 0, some demoProg⟩ := by
  refine ⟨?_, rfl, rfl⟩
  have h1 : (processRequest demoCompile rejectAll state0 reqB1).1.outcome =
      .panicked .verificationRejected := rfl
  rw [run_cons_panicked demoCompile rejectAll state0 reqB1 [reqB1]
    PanicReason.verificationRejected h1]
  rfl

/-- Claim C2: a request whose reply channel is already closed when the
coordinator dequeues it is discarded before any work: the verifier runs
zero times, the compiler runs zero times, the whole coordinator state
(storage store and runtime cache) is unchanged, and the loop moves on to
the remaining requests. -/
theorem C2_canceled_request_discarded (compile : Compiler) (verify : Verifier)
    (st : ExecState) (r : Request) (rest : List Request)
    (hc : r.canceled = true) :
    processRequest compile verify st r = (⟨.skipped, 0, 0, none⟩, st) ∧
    run_executor_task compile verify st (r :: rest) =
      ((run_executor_task compile verify st rest).1,
       (⟨.skipped, 0, 0, none⟩ : StepTrace) ::
         (run_executor_task compile verify st rest).2) := by
  have h := processRequest_canceled_eq compile verify st r hc
  refine ⟨h, ?_⟩
  have hrun := run_cons_skipped compile verify st r rest (by rw [h])
  simp only [h] at hrun
  exact hrun

/-- Witness for C2 at a concrete canceled request. -/
theorem C2_canceled_request_discarded_witness :
    reqCanceled.canceled = true ∧
    processRequest demoCompile acceptEmpty state0 reqCanceled =
      (⟨.skipped, 0, 0, none⟩, state0) :=
  ⟨rfl, (C2_canceled_request_discarded demoCompile acceptEmpty state0
    reqCanceled [] rfl).1⟩

/-- Claim C7: the claim says every processed request gets exactly one
outcome on its reply channel — accepted or a failure signal, never zero.
On the failure path the code delivers nothing: a live (not canceled)
request whose block the verifier rejects ends in a panic with zero
deliveries on its reply channel. -/
theorem C7_processed_request_can_deliver_nothing :
    reqB1.canceled = false ∧
    (processRequest demoCompile rejectAll state0 reqB1).1.outcome =
      .panicked .verificationRejected ∧
    ((processRequest demoCompile rejectAll state0 reqB1).1.outcome).deliveries = 0 := by
  exact ⟨rfl, rfl, rfl⟩

/-- Claim C8: the prefix-enumeration accessor handed to the verifier
returns, for the empty prefix, the keys of the parent snapshot (a key is
in the returned sequence exactly when it is bound in the snapshot), and
for every non-empty prefix the internal assertion fails instead of
returning anything. -/
theorem C8_enum_accessor_empty_only (parent : Snapshot) (pfx : Bytes) :
    (pfx = [] →
      ∃ ks, parent_storage_keys_enum parent pfx = some ks ∧
        ∀ k, k ∈ ks ↔ (parent.get k).isSome) ∧
    (pfx ≠ [] → parent_storage_keys_enum parent pfx = none) := by
  constructor
  · rintro rfl
    refine ⟨parent.storage_keys, by simp [parent_storage_keys_enum], ?_⟩
    intro k
    exact Snapshot.mem_storage_keys parent k
  · intro h
    simp [parent_storage_keys_enum, h]

/-- Witness for C8 at the demo genesis snapshot and a non-empty prefix. -/
theorem C8_enum_accessor_empty_only_witness :
    ([1] : Bytes) ≠ [] ∧ parent_storage_keys_enum snapG [1] = none :=
  ⟨by decide, (C8_enum_accessor_empty_only snapG [1]).2 (by decide)⟩

/-- Claim C3: for every accepted block, the committed child snapshot's
mapping equals the parent snapshot's mapping with each delta entry
applied: a key mapped to a present value reads back as that value, a key
mapped to an absent value reads back as absent, and a key the delta set
does not mention keeps its parent value. -/
theorem C3_child_snapshot_applies_delta (compile : Compiler) (verify : Verifier)
    (st : ExecState) (r : Request) (s : ExecuteSuccess) (parent : Snapshot)
    (hp : st.storage r.to_execute.header.parent_hash = some parent)
    (hout : (processRequest compile verify st r).1.outcome = .delivered s)
    (hnd : (s.storage_changes.map Prod.fst).Nodup) :
    ∃ child,
      (processRequest compile verify st r).2.storage
          r.to_execute.header.block_hash = some child ∧
      (∀ k v, deltaLookup s.storage_changes k = some (some v) →
          child.get k = some v) ∧
      (∀ k, deltaLookup s.storage_changes k = some none → child.get k = none) ∧
      (∀ k, deltaLookup s.storage_changes k = none → child.get k = parent.get k) := by
  obtain ⟨-, parent2, code, n, blob, hp2, hk, -, -, heq⟩ :=
    processRequest_delivered compile verify st r s hout
  obtain ⟨-, -, hfull⟩ :=
    finishWithBlob_delivered verify st r parent2 code n blob s (heq ▸ hout)
  have hpe : parent2 = parent := by
    rw [hp] at hp2
    injection hp2 with h2
    exact h2.symm
  subst hpe
  have hall := heq.trans hfull
  refine ⟨applyDeltaSet parent2 s.storage_changes, ?_, ?_, ?_, ?_⟩
  · simp only [hall]
    exact Storage.set_storage_get_self _ _ _
  · intro k v hkv
    rw [get_applyDeltaSet _ _ _ hnd, hkv]
  · intro k hkv
    rw [get_applyDeltaSet _ _ _ hnd, hkv]
  · intro k hkv
    rw [get_applyDeltaSet _ _ _ hnd, hkv]

/-- Witness for C3: the spec scenario delta (a = 2, b deleted) applied on
top of the demo genesis. -/
theorem C3_child_snapshot_applies_delta_witness :
    state0.storage reqB1.to_execute.header.parent_hash = some snapG ∧
    (processRequest demoCompile mixVerify state0 reqB1).1.outcome =
      .delivered ⟨blockB1, [([97], some [2]), ([98], none)]⟩ ∧
    ((([([97], some [2]), ([98], none)] : DeltaSet).map Prod.fst).Nodup) ∧
    ∃ child,
      (processRequest demoCompile mixVerify state0 reqB1).2.storage
          reqB1.to_execute.header.block_hash = some child ∧
      (∀ k v, deltaLookup [([97], some [2]), ([98], none)] k = some (some v) →
          child.get k = some v) ∧
      (∀ k, deltaLookup [([97], some [2]), ([98], none)] k = some none →
          child.get k = none) ∧
      (∀ k, deltaLookup [([97], some [2]), ([98], none)] k = none →
          child.get k = snapG.get k) :=
  ⟨by decide, by decide, by decide,
   C3_child_snapshot_applies_delta demoCompile mixVerify state0 reqB1
     ⟨blockB1, [([97], some [2]), ([98], none)]⟩ snapG
     (by decide) (by decide) (by decide)⟩

/-- Claim C4: for every accepted block whose own hash differs from its
parent's hash, the derived child snapshot is stored under the executed
block's header-derived hash and the parent snapshot is evicted: a get on
the parent hash now fails while a get on the new hash succeeds. -/
theorem C4_commit_under_new_hash_evicts_parent (compile : Compiler)
    (verify : Verifier) (st : ExecState) (r : Request) (s : ExecuteSuccess)
    (hout : (processRequest compile verify st r).1.outcome = .delivered s)
    (hne : r.to_execute.header.block_hash ≠ r.to_execute.header.parent_hash) :
    (processRequest compile verify st r).2.storage
        r.to_execute.header.parent_hash = none ∧
    ∃ child, (processRequest compile verify st r).2.storage
        r.to_execute.header.block_hash = some child := by
  obtain ⟨-, parent, code, n, blob, hp, hk, -, -, heq⟩ :=
    processRequest_delivered compile verify st r s hout
  obtain ⟨-, -, hfull⟩ :=
    finishWithBlob_delivered verify st r parent code n blob s (heq ▸ hout)
  have hall := heq.trans hfull
  constructor
  · simp only [hall]
    rw [Storage.set_storage_get_other _ _ _ _ (Ne.symm hne)]
    exact Storage.remove_storage_get_self _ _
  · refine ⟨applyDeltaSet parent s.storage_changes, ?_⟩
    simp only [hall]
    exact Storage.set_storage_get_self _ _ _

/-- Witness for C4 at a concrete accepted block. -/
theorem C4_commit_under_new_hash_evicts_parent_witness :
    (processRequest demoCompile acceptEmpty state0 reqB1).1.outcome =
      .delivered ⟨blockB1, []⟩ ∧
    reqB1.to_execute.header.block_hash ≠ reqB1.to_execute.header.parent_hash ∧
    ((processRequest demoCompile acceptEmpty state0 reqB1).2.storage
        reqB1.to_execute.header.parent_hash = none ∧
     ∃ child, (processRequest demoCompile acceptEmpty state0 reqB1).2.storage
        reqB1.to_execute.header.block_hash = some child) :=
  ⟨by decide, by decide,
   C4_commit_under_new_hash_evicts_parent demoCompile acceptEmpty state0 reqB1
     ⟨blockB1, []⟩ (by decide) (by decide)⟩

/-- Claim C10: processing an accepted request touches the storage store at
exactly two hashes: every hash other than the parent hash and the new
block hash keeps the snapshot it had before the request, the new block
hash now holds a snapshot, and (when the two hashes differ) the parent
hash holds none. -/
theorem C10_storage_frame (compile : Compiler) (verify : Verifier)
    (st : ExecState) (r : Request) (s : ExecuteSuccess)
    (hout : (processRequest compile verify st r).1.outcome = .delivered s) :
    (∀ h, h ≠ r.to_execute.header.parent_hash →
        h ≠ r.to_execute.header.block_hash →
        (processRequest compile verify st r).2.storage h = st.storage h) ∧
    (∃ child, (processRequest compile verify st r).2.storage
        r.to_execute.header.block_hash = some child) ∧
    (r.to_execute.header.block_hash ≠ r.to_execute.header.parent_hash →
        (processRequest compile verify st r).2.storage
          r.to_execute.header.parent_hash = none) := by
  obtain ⟨-, parent, code, n, blob, hp, hk, -, -, heq⟩ :=
    processRequest_delivered compile verify st r s hout
  obtain ⟨-, -, hfull⟩ :=
    finishWithBlob_delivered verify st r parent code n blob s (heq ▸ hout)
  have hall := heq.trans hfull
  refine ⟨?_, ?_, ?_⟩
  · intro h hne1 hne2
    simp only [hall]
    rw [Storage.set_storage_get_other _ _ _ _ hne2]
    exact Storage.remove_storage_get_other _ _ _ hne1
  · refine ⟨applyDeltaSet parent s.storage_changes, ?_⟩
    simp only [hall]
    exact Storage.set_storage_get_self _ _ _
  · intro hne
    simp only [hall]
    rw [Storage.set_storage_get_other _ _ _ _ (Ne.symm hne)]
    exact Storage.remove_storage_get_self _ _

/-- Witness for C10: the frame property evaluated after accepting B1, with
hash 5 as an unrelated hash. -/
theorem C10_storage_frame_witness :
    (processRequest demoCompile mixVerify state0 reqB1).1.outcome =
      .delivered ⟨blockB1, [([97], some [2]), ([98], none)]⟩ ∧
    (processRequest demoCompile mixVerify state0 reqB1).2.storage 5 =
      state0.storage 5 :=
  ⟨by decide,
   (C10_storage_frame demoCompile mixVerify state0 reqB1
     ⟨blockB1, [([97], some [2]), ([98], none)]⟩ (by decide)).1
     5 (by decide) (by decide)⟩

/-- Claim C5, counterexample: two requests whose parent snapshots hold
identical program bytes, yet the compiler runs twice.  B1's accepted delta
set rewrites the reserved program-storage key with the bytes it already
holds, which empties the cache, so B2 — whose parent snapshot holds the
same program bytes as B1's parent — compiles again.  The claim's "at most
once" bound fails. -/
theorem C5_counterexample_same_bytes_two_compiles :
    ((run_executor_task demoCompile rewriteCodeVerify state0 [reqB1, reqB2]).2.map
        (fun t => (t.compiles, t.parentCode)) =
      [(1, some demoProg), (1, some demoProg)]) ∧
    totalCompiles
      (run_executor_task demoCompile rewriteCodeVerify state0 [reqB1, reqB2]).2 = 2 := by
  decide

/-- Claim C5 as amended: across a run started with an empty cache, in
which every dequeued request that read program bytes read the same bytes
`c` and no delivered delta set touched the program-storage key, the
compiler runs at most once; when the parent's bytes equal the cached key
the cached form is reused, and a differing or missing key causes the one
compilation. -/
theorem C5_amended_compile_at_most_once (compile : Compiler) (verify : Verifier)
    (st : ExecState) (rs : List Request) (c : Bytes)
    (hcache : st.wasm_blob_cache = none)
    (hsame : ∀ t ∈ (run_executor_task compile verify st rs).2,
        t.parentCode = none ∨ t.parentCode = some c)
    (hnocode : ∀ t ∈ (run_executor_task compile verify st rs).2,
        t.touchesCode = false) :
    totalCompiles (run_executor_task compile verify st rs).2 ≤ 1 :=
  (run_compiles_bound compile verify c rs st hsame hnocode).1 hcache

/-- Witness for the amended C5: a two-request run sharing program bytes,
with one compilation in total. -/
theorem C5_amended_compile_at_most_once_witness :
    state0.wasm_blob_cache = none ∧
    (∀ t ∈ (run_executor_task demoCompile acceptEmpty state0 [reqB1, reqB2]).2,
        t.parentCode = none ∨ t.parentCode = some demoProg) ∧
    (∀ t ∈ (run_executor_task demoCompile acceptEmpty state0 [reqB1, reqB2]).2,
        t.touchesCode = false) ∧
    totalCompiles
      (run_executor_task demoCompile acceptEmpty state0 [reqB1, reqB2]).2 ≤ 1 :=
  ⟨rfl, by decide, by decide,
   C5_amended_compile_at_most_once demoCompile acceptEmpty state0 [reqB1, reqB2]
     demoProg rfl (by decide) (by decide)⟩

/-- Claim C6, counterexample: an accepted block whose delta set deletes
the reserved program-storage key does invalidate the cache, but the next
execution request does not "recompile the program from the new parent's
bytes before its verification proceeds" — it panics at the program-bytes
lookup with zero compiler runs and zero verifier runs. -/
theorem C6_counterexample_deletion_no_recompile :
    (run_executor_task demoCompile deleteCodeVerify state0 [reqB1, reqB2]).2.map
        (fun t => (t.outcome, t.compiles, t.verifies)) =
      [(.delivered ⟨blockB1, [(codeKey, none)]⟩, 1, 1),
       (.panicked .missingCodeKey, 0, 0)] := by
  decide

/-- Claim C6 as amended: for every accepted block, if the delta set
contains the program-storage key the runtime cache is emptied before the
request completes, and if it does not, a cache entry for the parent's
program bytes is left in place; moreover from an empty cache, any live
request whose parent snapshot still holds program bytes causes exactly one
compilation (the deletion case instead aborts the task — claim C9). -/
theorem C6_amended_cache_invalidation (compile : Compiler) (verify : Verifier)
    (st : ExecState) (r : Request) (s : ExecuteSuccess)
    (hout : (processRequest compile verify st r).1.outcome = .delivered s) :
    (deltaTouchesCode s.storage_changes = true →
        (processRequest compile verify st r).2.wasm_blob_cache = none) ∧
    (deltaTouchesCode s.storage_changes = false →
        ∃ code blob,
          (processRequest compile verify st r).1.parentCode = some code ∧
          (processRequest compile verify st r).2.wasm_blob_cache =
            some (code, blob)) ∧
    (∀ st2 r2 parent2 code2,
        st2.wasm_blob_cache = none → r2.canceled = false →
        st2.storage r2.to_execute.header.parent_hash = some parent2 →
        parent2.get codeKey = some code2 →
        (processRequest compile verify st2 r2).1.compiles = 1) := by
  obtain ⟨-, parent, code, n, blob, hp, hk, -, -, heq⟩ :=
    processRequest_delivered compile verify st r s hout
  obtain ⟨-, -, hfull⟩ :=
    finishWithBlob_delivered verify st r parent code n blob s (heq ▸ hout)
  have hall := heq.trans hfull
  refine ⟨?_, ?_, ?_⟩
  · intro ht
    simp only [hall, ht]
    rfl
  · intro ht
    refine ⟨code, blob, ?_, ?_⟩
    · simp only [hall]
    · simp only [hall, ht]
      rfl
  · intro st2 r2 parent2 code2 hc2 hcan2 hp2 hk2
    have heq2 : processRequest compile verify st2 r2 =
        compileAndFinish compile verify st2 r2 parent2 code2 := by
      simp [processRequest, hcan2, hp2, hk2, hc2]
    rw [heq2, compileAndFinish_compiles]

/-- Witness for the amended C6: B1 accepted with a delta rewriting the
program-storage key; the cache is emptied. -/
theorem C6_amended_cache_invalidation_witness :
    (processRequest demoCompile rewriteCodeVerify state0 reqB1).1.outcome =
      .delivered ⟨blockB1, [(codeKey, some demoProg)]⟩ ∧
    deltaTouchesCode [(codeKey, some demoProg)] = true ∧
    (processRequest demoCompile rewriteCodeVerify state0 reqB1).2.wasm_blob_cache
      = none :=
  ⟨by decide, by decide,
   (C6_amended_cache_invalidation demoCompile rewriteCodeVerify state0 reqB1
     ⟨blockB1, [(codeKey, some demoProg)]⟩ (by decide)).1 (by decide)⟩

/-- Claim C9: when an accepted block's delta set maps the reserved
program-storage key to an absent value, the commit itself succeeds (the
child snapshot is stored under the block's hash), but the next live
request whose parent is that block panics at the unwrap of the
program-bytes lookup: its trace is a missingCodeKey panic with nothing
delivered, and the loop ends there, serving none of the queued
requests. -/
theorem C9_code_deletion_aborts_successors (compile : Compiler)
    (verify : Verifier) (st : ExecState) (r1 r2 : Request) (s : ExecuteSuccess)
    (rest : List Request)
    (hout : (processRequest compile verify st r1).1.outcome = .delivered s)
    (hdel : deltaLookup s.storage_changes codeKey = some none)
    (hnd : (s.storage_changes.map Prod.fst).Nodup)
    (hc2 : r2.canceled = false)
    (hph : r2.to_execute.header.parent_hash = r1.to_execute.header.block_hash) :
    (∃ child, (processRequest compile verify st r1).2.storage
        r1.to_execute.header.block_hash = some child) ∧
    (processRequest compile verify (processRequest compile verify st r1).2 r2).1 =
      ⟨.panicked .missingCodeKey, 0, 0, none⟩ ∧
    run_executor_task compile verify (processRequest compile verify st r1).2
        (r2 :: rest) =
      ((processRequest compile verify st r1).2,
       [⟨.panicked .missingCodeKey, 0, 0, none⟩]) := by
  obtain ⟨-, parent, code, n, blob, hp, hk, -, -, heq⟩ :=
    processRequest_delivered compile verify st r1 s hout
  obtain ⟨-, -, hfull⟩ :=
    finishWithBlob_delivered verify st r1 parent code n blob s (heq ▸ hout)
  have hall := heq.trans hfull
  have hchild : (processRequest compile verify st r1).2.storage
      r1.to_execute.header.block_hash =
        some (applyDeltaSet parent s.storage_changes) := by
    simp only [hall]
    exact Storage.set_storage_get_self _ _ _
  have hcode_gone : (applyDeltaSet parent s.storage_changes).get codeKey = none := by
    rw [get_applyDeltaSet _ _ _ hnd, hdel]
  have hp2 : (processRequest compile verify st r1).2.storage
      r2.to_execute.header.parent_hash =
        some (applyDeltaSet parent s.storage_changes) := by
    rw [hph]
    exact hchild
  have hstep2gen : ∀ st1 : ExecState,
      st1.storage r2.to_execute.header.parent_hash =
        some (applyDeltaSet parent s.storage_changes) →
      processRequest compile verify st1 r2 =
        (⟨.panicked .missingCodeKey, 0, 0, none⟩, st1) := by
    intro st1 h1
    simp [processRequest, hc2, h1, hcode_gone]
  have hstep2 := hstep2gen (processRequest compile verify st r1).2 hp2
  refine ⟨⟨applyDeltaSet parent s.storage_changes, hchild⟩, ?_, ?_⟩
  · rw [hstep2]
  · have hout2 : (processRequest compile verify
        (processRequest compile verify st r1).2 r2).1.outcome =
          .panicked .missingCodeKey := by
      rw [hstep2]
    rw [run_cons_panicked compile verify (processRequest compile verify st r1).2
      r2 rest PanicReason.missingCodeKey hout2]
    rw [hstep2]

/-- Witness for C9: B1 accepted with a delta deleting the program-storage
key; the queued B2 request makes the task panic and ends the run. -/
theorem C9_code_deletion_aborts_successors_witness :
    (processRequest demoCompile deleteCodeVerify state0 reqB1).1.outcome =
      .delivered ⟨blockB1, [(codeKey, none)]⟩ ∧
    deltaLookup [(codeKey, none)] codeKey = some none ∧
    reqB2.to_execute.header.parent_hash = reqB1.to_execute.header.block_hash ∧
    run_executor_task demoCompile deleteCodeVerify
        (processRequest demoCompile deleteCodeVerify state0 reqB1).2 [reqB2] =
      ((processRequest demoCompile deleteCodeVerify state0 reqB1).2,
       [⟨.panicked .missingCodeKey, 0, 0, none⟩]) :=
  ⟨by decide, by decide, by decide,
   (C9_code_deletion_aborts_successors demoCompile deleteCodeVerify state0
     reqB1 reqB2 ⟨blockB1, [(codeKey, none)]⟩ []
     (by decide) (by decide) (by decide) (by decide) (by decide)).2.2⟩

end ExecutorTask
